import Mathlib

/-!
Verification development for the freight-doom-tracker engine
(`src/freight_doom_engine`).  The Rust sources are shallowly embedded:
strings are `List Char` (byte/char indices coincide on the ASCII inputs the
claims exercise), `f64` confidence arithmetic is modelled with the exact
rational type `Q` below (the concrete values compared here are far from
any rounding boundary),
`Instant`s are abstract `Nat` timestamps passed to each operation, and the
Bloom filter is modelled as the exact set of keys inserted since the last
rotation together with an arbitrary false-positive oracle `fp` (a Bloom
filter has no false negatives; `fp` may answer `true` on keys not present).
Fields of `BankruptcyEvent` that no claim mentions (`id` — a random UUID,
`detected_at` — the creation instant, `filing_date` — a best-effort date
parse) are omitted from the embedding.
-/

set_option autoImplicit false
set_option maxRecDepth 100000

namespace FreightDoom

/-- Strings from the Rust source, as lists of characters. -/
def Str := List Char

instance : DecidableEq Str := inferInstanceAs (DecidableEq (List Char))

instance : Membership Char Str := inferInstanceAs (Membership Char (List Char))

instance : Append Str := inferInstanceAs (Append (List Char))

/-- Coerce a Lean string literal into the embedding's string type. -/
def ofString (s : String) : Str := s.toList

/-- ASCII whitespace, the fragment of Rust `char::is_whitespace` that the
inputs in this development exercise. -/
def isWs (c : Char) : Bool :=
  c = ' ' || c = '\t' || c = '\n' || c = '\r' || c = '\x0b' || c = '\x0c'

/-- ASCII lowercasing of a character (Rust `to_lowercase` /
`ascii_case_insensitive` on the ASCII inputs used here). -/
def lowerC (c : Char) : Char := c.toLower

/-- ASCII uppercasing of a character (Rust `to_uppercase` on ASCII). -/
def upperC (c : Char) : Char := c.toUpper

/-- Rust `str::to_lowercase` (ASCII fragment). -/
def lowerS (s : Str) : Str := s.map lowerC

/-- Rust `str::to_uppercase` (ASCII fragment). -/
def upperS (s : Str) : Str := s.map upperC

/-- Whether `needle` occurs as a contiguous substring of `hay`
(Rust `str::contains` / `memchr::memmem::find(..).is_some()`). -/
def containsSub (hay needle : Str) : Bool :=
  (List.range (List.length hay + 1)).any
    (fun i => List.isPrefixOf needle (List.drop i hay))

/-- Index of the first occurrence of `needle` in `hay`
(Rust `str::find` returning a byte index; on ASCII these coincide with
character indices). -/
def findSub (hay needle : Str) : Option Nat :=
  (List.range (List.length hay + 1)).find?
    (fun i => List.isPrefixOf needle (List.drop i hay))

/-- The half-open slice `hay[a..b]` (Rust range indexing). -/
def slice (hay : Str) (a b : Nat) : Str :=
  List.take (b - a) (List.drop a hay)

/-- Drop leading whitespace. -/
def trimL (l : Str) : Str := List.dropWhile isWs l

/-- Rust `str::trim`: drop leading and trailing whitespace.  Implemented
head-side on the reversal so that both ends go through `trimL`. -/
def trimS (l : Str) : Str := List.reverse (trimL (List.reverse (trimL l)))

/-- Word count of Rust `text.split_whitespace().count()`: the number of
maximal runs of non-whitespace characters. -/
def wordCountAux : List Char → Bool → Nat
  | [], _ => 0
  | c :: rest, inWord =>
    if isWs c then wordCountAux rest false
    else (if inWord then 0 else 1) + wordCountAux rest true

/-- Number of whitespace-delimited words. -/
def wordCount (l : Str) : Nat := wordCountAux l false

/-- Lexicographic (byte-value) order on strings, the order used by Rust's
`Vec::<String>::sort`. -/
def strLe : Str → Str → Bool
  | [], _ => true
  | _ :: _, [] => false
  | a :: as, b :: bs => if a = b then strLe as bs else decide (a < b)

/-- Stable insertion of an element into a sorted list. -/
def insertSorted (x : Str) : List Str → List Str
  | [] => [x]
  | y :: ys => if strLe x y then x :: y :: ys else y :: insertSorted x ys

/-- Stable sort in the `strLe` order (Rust `Vec::sort`; `strLe` is a total
order, so any correct sort produces this list). -/
def sortStr (l : List Str) : List Str := List.foldr insertSorted [] l

/-- Rust `Vec::dedup`: remove consecutive duplicates. -/
def dedupAdj : List Str → List Str
  | [] => []
  | [a] => [a]
  | a :: b :: rest =>
    if a = b then dedupAdj (b :: rest) else a :: dedupAdj (b :: rest)

/-- Rust `str::replace`: replace every occurrence of `pat` by `rep`,
scanning left to right.  (The patterns replaced in the source are the
non-empty literals `<![CDATA[` and `]]>`.) -/
def replaceSub (hay pat rep : Str) : Str :=
  match hay with
  | [] => []
  | c :: rest =>
    if pat ≠ [] ∧ List.isPrefixOf pat (c :: rest) then
      rep ++ replaceSub (List.drop (List.length pat - 1) rest) pat rep
    else
      c :: replaceSub rest pat rep
termination_by List.length hay
decreasing_by
  · simp only [List.length_drop, List.length_cons]
    omega
  · simp

/-! ### Exact rationals

`f64` confidence arithmetic is modelled by exact rationals.  Mathlib's `ℚ`
does not reduce inside the kernel, so this small gcd-normalised fraction
type is used instead; every operation normalises, so structural equality
coincides with value equality, and all denominators produced are
positive.  On the concrete computations of this development the `f64`
values compared are far from any rounding boundary, so exact arithmetic
decides every comparison the way the floating-point program does. -/

/-- A gcd-normalised fraction with positive denominator. -/
structure Q where
  num : Int
  den : Nat
deriving DecidableEq, Repr

/-- Normalise a fraction `n / d` (with `d = 0` never produced by the
embedded programs). -/
def Q.norm (n : Int) (d : Nat) : Q :=
  if d = 0 then ⟨0, 1⟩
  else
    let g := Nat.gcd n.natAbs d
    ⟨n / g, d / g⟩

/-- The rational `n / d`. -/
def Q.frac (n : Int) (d : Nat) : Q := Q.norm n d

/-- Embed a natural number. -/
def Q.ofNat (n : Nat) : Q := ⟨n, 1⟩

/-- Addition. -/
def Q.add (a b : Q) : Q :=
  Q.norm (a.num * b.den + b.num * a.den) (a.den * b.den)

/-- Multiplication. -/
def Q.mul (a b : Q) : Q := Q.norm (a.num * b.num) (a.den * b.den)

/-- Strict comparison (`f64 <`). -/
def Q.blt (a b : Q) : Bool := a.num * b.den < b.num * a.den

/-- `f64::min`. -/
def Q.min (a b : Q) : Q := if Q.blt a b then a else b

/-! ### Data model (`models.rs`) -/

/-- Source of a detected event (`models.rs::Source`). -/
inductive Source where
  | Pacer
  | Edgar
  | Fmcsa
  | CourtListener
deriving DecidableEq, Repr

/-- Bankruptcy chapter (`models.rs::BankruptcyChapter`). -/
inductive BankruptcyChapter where
  | Chapter7
  | Chapter11
  | Chapter13
  | Unknown
deriving DecidableEq, Repr

/-- Company classification (`models.rs::CompanyClassification`). -/
inductive CompanyClassification where
  | Carrier
  | Broker
  | ThirdPartyLogistics
  | FreightForwarder
  | Unclassified
deriving DecidableEq, Repr

/-- The event struct (`models.rs::BankruptcyEvent`), without the fields no
claim mentions: `id` (random UUID), `detected_at` (creation instant) and
`filing_date` (best-effort date parse). -/
structure BankruptcyEvent where
  company_name : Str
  dot_number : Option Str
  mc_number : Option Str
  court : Option Str
  chapter : BankruptcyChapter
  source : Source
  confidence_score : Q
  classification : CompanyClassification
  source_url : Option Str
deriving DecidableEq

/-- The constructor `BankruptcyEvent::new`: all optionals `None`, chapter
`Unknown`, classification `Unclassified`.  It performs no validation or
normalisation of `company_name`. -/
def BankruptcyEvent.new (company_name : Str) (source : Source)
    (confidence_score : Q) : BankruptcyEvent where
  company_name := company_name
  dot_number := none
  mc_number := none
  court := none
  chapter := BankruptcyChapter.Unknown
  source := source
  confidence_score := confidence_score
  classification := CompanyClassification.Unclassified
  source_url := none

/-! ### Text scanner (`text_scanner.rs`)

The five keyword lexicons are transcribed verbatim from the source.  The
Aho-Corasick automata are built with `ascii_case_insensitive(true)` and the
default `MatchKind::Standard`; `find_iter` with standard semantics reports
non-overlapping matches left to right, each match being the one with the
earliest end position (and, among patterns ending there, the longest —
the match state's own pattern), resuming the search at the end of the
reported match.  `findMatches` below implements exactly that. -/

/-- `FREIGHT_KEYWORDS` from `text_scanner.rs`. -/
def freightKeywords : List Str := List.map ofString [
  "freight", "trucking", "carrier", "logistics", "transportation",
  "shipping", "hauling", "drayage", "intermodal", "ltl", "truckload",
  "less than truckload", "full truckload", "flatbed", "reefer",
  "refrigerated", "tanker", "dry van", "container", "trailer", "tractor",
  "semi", "18 wheeler", "eighteen wheeler", "motor carrier",
  "common carrier", "contract carrier", "freight broker",
  "freight forwarder", "3pl", "third party logistics",
  "third-party logistics", "supply chain", "warehouse", "warehousing",
  "distribution", "distribution center", "cross dock", "cross-dock",
  "last mile", "last-mile", "first mile", "middle mile", "linehaul",
  "line haul", "line-haul", "dispatch", "dispatcher", "load board",
  "dot number", "usdot", "mc number", "fmcsa", "operating authority",
  "broker authority", "cdl", "commercial driver", "owner operator",
  "owner-operator", "deadhead", "bobtail", "lumper", "bill of lading",
  "bol", "pod", "proof of delivery", "freight class", "nmfc", "stcc",
  "ata ", "ooida", "tia",
  "chapter 7", "chapter 11", "chapter 13", "bankruptcy", "bankrupt",
  "insolvency", "insolvent", "liquidation", "reorganization", "creditor",
  "debtor", "filing", "petition", "receivership", "dissolution",
  "wind down", "cease operations", "ceased operations", "going concern",
  "material uncertainty"]

/-- `CARRIER_KEYWORDS` from `text_scanner.rs`. -/
def carrierKeywords : List Str := List.map ofString [
  "motor carrier", "common carrier", "contract carrier",
  "trucking company", "trucking", "carrier", "fleet", "cdl", "driver",
  "owner operator", "tractor", "trailer", "dot number", "usdot"]

/-- `BROKER_KEYWORDS` from `text_scanner.rs`. -/
def brokerKeywords : List Str := List.map ofString [
  "freight broker", "brokerage", "broker authority", "load board",
  "intermediary", "tia"]

/-- `TPL_KEYWORDS` from `text_scanner.rs`. -/
def tplKeywords : List Str := List.map ofString [
  "3pl", "third party logistics", "third-party logistics", "warehouse",
  "warehousing", "distribution center", "fulfillment"]

/-- `FORWARDER_KEYWORDS` from `text_scanner.rs`. -/
def forwarderKeywords : List Str := List.map ofString [
  "freight forwarder", "forwarding", "customs", "import", "export",
  "international shipping", "ocean freight", "air freight", "nvocc"]

/-- Patterns (from the keyword list) that end at position `e` of `hay`,
matched ASCII-case-insensitively. -/
def patsEndingAt (pats : List Str) (hay : Str) (e : Nat) : List Str :=
  pats.filter (fun p =>
    decide (List.length p ≤ e) &&
    decide (lowerS (slice hay (e - List.length p) e) = lowerS p))

/-- The longest pattern in a list (first wins a length tie); this is the
match state's own pattern in the Aho-Corasick automaton. -/
def longestPat : List Str → Option Str
  | [] => none
  | p :: ps =>
    match longestPat ps with
    | none => some p
    | some q => some (if List.length q > List.length p then q else p)

/-- First (earliest-ending) match of any pattern in `hay`: the end
position together with the matching pattern. -/
def firstMatchEnd (pats : List Str) (hay : Str) : Option (Nat × Str) :=
  match (List.range' 1 (List.length hay)).find?
      (fun e => !(patsEndingAt pats hay e).isEmpty) with
  | none => none
  | some e =>
    match longestPat (patsEndingAt pats hay e) with
    | none => none
    | some p => some (e, p)

/-- Non-overlapping standard-semantics `find_iter`, returning the matched
slices of the haystack (original case).  The fuel argument bounds the
number of matches; each match consumes at least one character, so
`List.length hay` matches is an upper bound. -/
def findMatchesFuel (pats : List Str) : Nat → Str → List Str
  | 0, _ => []
  | fuel + 1, hay =>
    match firstMatchEnd pats hay with
    | none => []
    | some (e, p) =>
      slice hay (e - List.length p) e ::
        findMatchesFuel pats fuel (List.drop e hay)

/-- All non-overlapping matches of `pats` in `hay`
(`AhoCorasick::find_iter`). -/
def findMatches (pats : List Str) (hay : Str) : List Str :=
  findMatchesFuel pats (List.length hay + 1) hay

/-- The `has_potential` early gate inside `scan_text` (twelve `memmem`
probes, in source order). -/
def hasPotential (text : Str) : Bool :=
  containsSub text (ofString "freight")
    || containsSub text (ofString "truck")
    || containsSub text (ofString "carrier")
    || containsSub text (ofString "bankrupt")
    || containsSub text (ofString "chapter")
    || containsSub text (ofString "logistics")
    || containsSub text (ofString "Freight")
    || containsSub text (ofString "Truck")
    || containsSub text (ofString "Carrier")
    || containsSub text (ofString "Bankrupt")
    || containsSub text (ofString "FREIGHT")
    || containsSub text (ofString "TRUCK")

/-- `quick_freight_check` from `text_scanner.rs` (thirteen `memmem`
probes, in source order). -/
def quick_freight_check (text : Str) : Bool :=
  containsSub text (ofString "freight")
    || containsSub text (ofString "Freight")
    || containsSub text (ofString "FREIGHT")
    || containsSub text (ofString "truck")
    || containsSub text (ofString "Truck")
    || containsSub text (ofString "carrier")
    || containsSub text (ofString "Carrier")
    || containsSub text (ofString "logistics")
    || containsSub text (ofString "Logistics")
    || containsSub text (ofString "3pl")
    || containsSub text (ofString "3PL")
    || containsSub text (ofString "broker")
    || containsSub text (ofString "Broker")

/-- The bankruptcy term sublist used to split hit counts in `scan_text`. -/
def bankruptcyTerms : List Str := List.map ofString [
  "chapter 7", "chapter 11", "chapter 13", "bankruptcy", "bankrupt",
  "insolvency", "insolvent", "liquidation", "reorganization", "creditor",
  "debtor", "filing", "petition", "receivership", "dissolution",
  "wind down", "cease operations", "going concern"]

/-- The high-signal keyword list used for the confidence bonus in
`scan_text`. -/
def highSignalTerms : List Str := List.map ofString [
  "motor carrier", "freight broker", "trucking company", "3pl",
  "chapter 11", "chapter 7", "operating authority"]

/-- Result of `scan_text` (`text_scanner.rs::ScanResult`). -/
structure ScanResult where
  confidence : Q
  freight_keyword_hits : Nat
  bankruptcy_keyword_hits : Nat
  total_matches : Nat
  classification : CompanyClassification
  matched_keywords : List Str
deriving DecidableEq

/-- The all-zero `ScanResult` returned by every early exit of
`scan_text`. -/
def zeroScan : ScanResult where
  confidence := Q.ofNat 0
  freight_keyword_hits := 0
  bankruptcy_keyword_hits := 0
  total_matches := 0
  classification := CompanyClassification.Unclassified
  matched_keywords := []

/-- `classify_company` from `text_scanner.rs`: occurrence counts of the
four narrow automata, maximum wins, ties in source order. -/
def classify_company (text : Str) : CompanyClassification :=
  let carrier_hits := List.length (findMatches carrierKeywords text)
  let broker_hits := List.length (findMatches brokerKeywords text)
  let tpl_hits := List.length (findMatches tplKeywords text)
  let forwarder_hits := List.length (findMatches forwarderKeywords text)
  let max_hits := max (max (max carrier_hits broker_hits) tpl_hits)
    forwarder_hits
  if max_hits = 0 then CompanyClassification.Unclassified
  else if carrier_hits = max_hits then CompanyClassification.Carrier
  else if broker_hits = max_hits then CompanyClassification.Broker
  else if tpl_hits = max_hits then CompanyClassification.ThirdPartyLogistics
  else CompanyClassification.FreightForwarder

/-- `scan_text` from `text_scanner.rs`. -/
def scan_text (text : Str) : ScanResult :=
  if text = [] then zeroScan
  else if !hasPotential text then zeroScan
  else
    let found := findMatches freightKeywords text
    let total_matches := List.length found
    if total_matches = 0 then zeroScan
    else
      let matched_keywords := dedupAdj (sortStr (found.map lowerS))
      let bankruptcy_keyword_hits := List.length (matched_keywords.filter
        (fun k => bankruptcyTerms.any (fun bt => containsSub k bt)))
      let freight_keyword_hits := total_matches - bankruptcy_keyword_hits
      let word_count : Nat := max (wordCount text) 1
      let unique_ratio : Q :=
        Q.frac (List.length matched_keywords) (List.length freightKeywords)
      let density : Q := Q.frac total_matches word_count
      let high_signal_count := List.length (matched_keywords.filter
        (fun k => highSignalTerms.any (fun hs => containsSub k hs)))
      let confidence : Q :=
        Q.add
          (Q.add
            (Q.add (Q.min (Q.mul unique_ratio (Q.ofNat 4)) (Q.frac 4 10))
              (Q.min (Q.mul density (Q.ofNat 30)) (Q.frac 3 10)))
            (if freight_keyword_hits > 0 ∧ bankruptcy_keyword_hits > 0
              then Q.frac 2 10 else Q.ofNat 0))
          (Q.min (Q.mul (Q.ofNat high_signal_count) (Q.frac 5 100))
            (Q.frac 1 10))
      let confidence := Q.min confidence (Q.ofNat 1)
      { confidence := confidence
        freight_keyword_hits := freight_keyword_hits
        bankruptcy_keyword_hits := bankruptcy_keyword_hits
        total_matches := total_matches
        classification := classify_company text
        matched_keywords := matched_keywords }

/-! ### Deduplication engine (`dedup.rs`)

The Bloom filter is modelled as the exact list of keys inserted since the
last rotation, plus a false-positive oracle `fp` in the configuration:
`bloomCheck` answers `true` on every inserted key (a Bloom filter has no
false negatives) and may answer `true` on other keys as `fp` dictates
(hash-collision false positives).  Timestamps are abstract `Nat` seconds
passed to each operation; the double-checked rotation gate collapses to a
single check in this sequential model. -/

/-- Construction parameters of `DedupEngine::new`, plus the
false-positive oracle of the Bloom filter model. -/
structure DedupCfg where
  bloom_expected_items : Nat
  bloom_fp_rate : Q
  lru_capacity : Nat
  rotation_interval_secs : Nat
  fp : List Str → Str → Bool

/-- Mutable state of the `DedupEngine`, including the atomic counters of
`DedupStats`.  The LRU cache is a most-recently-used-first list of keys
(all stored values are `true` in the source). -/
structure DedupState where
  bloomKeys : List Str
  lru : List Str
  last_rotation : Nat
  checks : Nat
  unique : Nat
  duplicates : Nat
  rotations : Nat
  bloom_maybe_hits : Nat
deriving DecidableEq

/-- Effective LRU capacity:
`NonZeroUsize::new(lru_capacity).unwrap_or(1000)`. -/
def lruCap (cfg : DedupCfg) : Nat :=
  if cfg.lru_capacity = 0 then 1000 else cfg.lru_capacity

/-- `DedupEngine::new`: empty filter and cache, `last_rotation` stamped
with the construction instant, all counters zero. -/
def DedupEngine.new (now : Nat) : DedupState where
  bloomKeys := []
  lru := []
  last_rotation := now
  checks := 0
  unique := 0
  duplicates := 0
  rotations := 0
  bloom_maybe_hits := 0

/-- `Bloom::check`: `true` on every key inserted since the last rotation;
on other keys, whatever the false-positive oracle says. -/
def bloomCheck (cfg : DedupCfg) (bloomKeys : List Str) (k : Str) : Bool :=
  decide (k ∈ bloomKeys) || cfg.fp bloomKeys k

/-- `LruCache::put`: insert (or refresh) `k` at the most-recent end,
evicting the least-recently-used entry when past capacity. -/
def lruPut (cap : Nat) (k : Str) (lru : List Str) : List Str :=
  List.take cap (k :: lru.erase k)

/-- `DedupEngine::maybe_rotate`: replace the filter with a fresh one when
the rotation interval has elapsed.  The LRU cache is not rotated. -/
def maybe_rotate (cfg : DedupCfg) (s : DedupState) (now : Nat) : DedupState :=
  if now - s.last_rotation ≥ cfg.rotation_interval_secs then
    { s with bloomKeys := [], last_rotation := now,
             rotations := s.rotations + 1 }
  else s

/-- `DedupEngine::check_and_insert`: returns `true` iff the key is
accepted as new, together with the updated state. -/
def check_and_insert (cfg : DedupCfg) (s : DedupState) (k : Str)
    (now : Nat) : Bool × DedupState :=
  let s := { s with checks := s.checks + 1 }
  let s := maybe_rotate cfg s now
  if bloomCheck cfg s.bloomKeys k then
    let s := { s with bloom_maybe_hits := s.bloom_maybe_hits + 1 }
    if k ∈ s.lru then
      (false, { s with lru := k :: s.lru.erase k,
                       duplicates := s.duplicates + 1 })
    else
      (true, { s with bloomKeys := k :: s.bloomKeys,
                      lru := lruPut (lruCap cfg) k s.lru,
                      unique := s.unique + 1 })
  else
    (true, { s with bloomKeys := k :: s.bloomKeys,
                    lru := lruPut (lruCap cfg) k s.lru,
                    unique := s.unique + 1 })

/-! ### Circuit breaker (`circuit_breaker.rs`) -/

/-- `CircuitState` from `circuit_breaker.rs`. -/
inductive CircuitState where
  | Closed
  | Open
  | HalfOpen
deriving DecidableEq, Repr

/-- Construction parameters of `CircuitBreaker::new` (reset timeout in
abstract seconds). -/
structure CBConfig where
  failure_threshold : Nat
  reset_timeout : Nat
  success_threshold : Nat
deriving DecidableEq

/-- `CircuitBreakerInner`: the mutable state behind the lock. -/
structure CBInner where
  state : CircuitState
  failure_count : Nat
  success_count : Nat
  last_failure_time : Option Nat
  last_state_change : Nat
  total_trips : Nat
deriving DecidableEq

/-- Initial breaker state from `CircuitBreaker::new`. -/
def CircuitBreaker.init (now : Nat) : CBInner where
  state := CircuitState.Closed
  failure_count := 0
  success_count := 0
  last_failure_time := none
  last_state_change := now
  total_trips := 0

/-- `CircuitBreaker::allow_request`. -/
def allow_request (cfg : CBConfig) (s : CBInner) (now : Nat) :
    Bool × CBInner :=
  match s.state with
  | CircuitState.Closed => (true, s)
  | CircuitState.Open =>
    match s.last_failure_time with
    | some last_failure =>
      if now - last_failure ≥ cfg.reset_timeout then
        (true, { s with state := CircuitState.HalfOpen,
                        success_count := 0,
                        last_state_change := now })
      else
        (false, s)
    | none => (true, s)
  | CircuitState.HalfOpen => (true, s)

/-- `CircuitBreaker::record_success`. -/
def record_success (cfg : CBConfig) (s : CBInner) (now : Nat) : CBInner :=
  match s.state with
  | CircuitState.Closed => { s with failure_count := 0 }
  | CircuitState.HalfOpen =>
    let success_count := s.success_count + 1
    if success_count ≥ cfg.success_threshold then
      { s with state := CircuitState.Closed,
               failure_count := 0,
               success_count := 0,
               last_state_change := now }
    else
      { s with success_count := success_count }
  | CircuitState.Open => s

/-- `CircuitBreaker::record_failure`. -/
def record_failure (cfg : CBConfig) (s : CBInner) (now : Nat) : CBInner :=
  match s.state with
  | CircuitState.Closed =>
    let failure_count := s.failure_count + 1
    if failure_count ≥ cfg.failure_threshold then
      { s with state := CircuitState.Open,
               failure_count := failure_count,
               last_failure_time := some now,
               total_trips := s.total_trips + 1,
               last_state_change := now }
    else
      { s with failure_count := failure_count,
               last_failure_time := some now }
  | CircuitState.HalfOpen =>
    { s with state := CircuitState.Open,
             failure_count := cfg.failure_threshold,
             last_failure_time := some now,
             total_trips := s.total_trips + 1,
             last_state_change := now }
  | CircuitState.Open =>
    { s with last_failure_time := some now }

/-- One public operation on a breaker, with its call instant. -/
inductive CBOp where
  | allow (now : Nat)
  | success (now : Nat)
  | failure (now : Nat)

/-- Apply one operation to the breaker state. -/
def cbStep (cfg : CBConfig) (s : CBInner) : CBOp → CBInner
  | CBOp.allow now => (allow_request cfg s now).2
  | CBOp.success now => record_success cfg s now
  | CBOp.failure now => record_failure cfg s now

/-- Run a sequence of public operations from a starting state. -/
def cbRun (cfg : CBConfig) (s : CBInner) (ops : List CBOp) : CBInner :=
  ops.foldl (cbStep cfg) s

/-! ### Poller fetch outcomes and breaker accounting
(`pacer_scanner.rs::fetch_and_parse_feed` / the `run` loop, and
`fmcsa_scanner.rs::check_carrier`'s fetch prologue) -/

/-- Outcome of one HTTP fetch: a transport-level error from `send()`, or
a received response with its status code and whether the body could be
read. -/
inductive FetchOutcome where
  | transportError
  | response (status : Nat) (bodyOk : Bool)
deriving DecidableEq, Repr

/-- A call recorded on the circuit breaker. -/
inductive BreakerCall where
  | recordedSuccess
  | recordedFailure
deriving DecidableEq, Repr

/-- `reqwest::StatusCode::is_success`: 2xx. -/
def http_is_success (status : Nat) : Bool := 200 ≤ status && status < 300

/-- Whether `fetch_and_parse_feed` returns `Err` for an outcome: transport
errors, every non-2xx status (the function turns them into `Err` via
`format!(..).into()`), and body-read errors.  XML extraction itself never
fails. -/
def fetch_and_parse_feed_is_err : FetchOutcome → Bool
  | FetchOutcome.transportError => true
  | FetchOutcome.response status bodyOk => !http_is_success status || !bodyOk

/-- Breaker calls made by the PACER `run` loop for one court fetch:
`record_success` on `Ok`, `record_failure` on `Err`. -/
def pacer_breaker_calls (o : FetchOutcome) : List BreakerCall :=
  if fetch_and_parse_feed_is_err o then [BreakerCall.recordedFailure]
  else [BreakerCall.recordedSuccess]

/-- Breaker calls made by `fmcsa_scanner.rs::check_carrier` for one fetch:
`record_failure` only when `send()` itself errors; `record_success` as
soon as any response arrives, before the status is even inspected (a
non-2xx status, body-read error or JSON-parse failure triggers no further
breaker call). -/
def fmcsa_breaker_calls : FetchOutcome → List BreakerCall
  | FetchOutcome.transportError => [BreakerCall.recordedFailure]
  | FetchOutcome.response _ _ => [BreakerCall.recordedSuccess]

/-! ### FMCSA scanner (`fmcsa_scanner.rs`) -/

/-- The carrier payload of the QCMobile response
(`fmcsa_scanner.rs::QcMobileCarrier`); the physical-location and fleet
fields are only interpolated into log lines and are omitted. -/
structure QcMobileCarrier where
  legal_name : Option Str
  dba_name : Option Str
  dot_number : Option Str
  mc_number : Option Str
  carrier_operation : Option Str
  status_code : Option Str
  oos_date : Option Str
  insurance_required : Option Str
  insurance_on_file : Option Str
deriving DecidableEq

/-- Rust `Option::filter(|s| !s.is_empty())`. -/
def optFilterNonempty : Option Str → Option Str
  | some n => if n = [] then none else some n
  | none => none

/-- `classify_carrier_operation` from `fmcsa_scanner.rs`. -/
def classify_carrier_operation (operation : Str) : CompanyClassification :=
  let upper := upperS operation
  if containsSub upper (ofString "BROKER") then
    CompanyClassification.Broker
  else if containsSub upper (ofString "FREIGHT FORWARDER")
      || containsSub upper (ofString "FORWARDER") then
    CompanyClassification.FreightForwarder
  else if containsSub upper (ofString "CARRIER")
      || containsSub upper (ofString "MOTOR")
      || containsSub upper (ofString "INTERSTATE") then
    CompanyClassification.Carrier
  else
    CompanyClassification.Carrier

/-- The SAFER snapshot URL interpolated into FMCSA events. -/
def saferUrl (dot_number : Str) : Str :=
  ofString "https://safer.fmcsa.dot.gov/query.asp?searchtype=ANY&query_type=queryCarrierSnapshot&query_param=USDOT&query_string="
    ++ dot_number

/-- The death-signal status test in `check_carrier_record`
(`status ∈ {INACTIVE, REVOKED, OUT OF SERVICE, NOT AUTHORIZED}`). -/
def fmcsa_is_status_dead (status : Str) : Bool :=
  decide (status = ofString "INACTIVE")
    || decide (status = ofString "REVOKED")
    || decide (status = ofString "OUT OF SERVICE")
    || decide (status = ofString "NOT AUTHORIZED")

/-- Non-empty out-of-service date test in `check_carrier_record`. -/
def fmcsa_has_oos_date (carrier : QcMobileCarrier) : Bool :=
  match carrier.oos_date with
  | some d => decide (d ≠ [])
  | none => false

/-- Insurance-lapse test in `check_carrier_record`. -/
def fmcsa_insurance_lapsed (carrier : QcMobileCarrier) : Bool :=
  (match carrier.insurance_required with
    | some r => decide (upperS r = ofString "Y")
    | none => false)
  && (match carrier.insurance_on_file with
    | some f => decide (upperS f = ofString "N") || decide (f = [])
    | none => true)

/-- The confidence policy table of `check_carrier_record`: a `match` on
the status when a dead status is present, `0.70` for an insurance lapse
without one, `0.65` otherwise (out-of-service date only). -/
def fmcsa_policy_confidence (status : Str)
    (is_status_dead insurance_lapsed : Bool) : Q :=
  if is_status_dead then
    if status = ofString "REVOKED" then Q.frac 90 100
    else if status = ofString "OUT OF SERVICE" then Q.frac 85 100
    else if status = ofString "INACTIVE" then Q.frac 80 100
    else if status = ofString "NOT AUTHORIZED" then Q.frac 85 100
    else Q.frac 75 100
  else if insurance_lapsed then Q.frac 70 100
  else Q.frac 65 100

/-- Record-processing tail of `fmcsa_scanner.rs::check_carrier` for a
successfully parsed carrier record: death-signal evaluation, dedup check,
policy confidence, minimum-confidence test, event construction.  Returns
the event handed to `event_tx.try_send` (if any) and the updated dedup
state. -/
def check_carrier_record (cfg : DedupCfg) (carrier : QcMobileCarrier)
    (dot_number fallback_name : Str) (min_confidence : Q)
    (dedup : DedupState) (now : Nat) :
    Option BankruptcyEvent × DedupState :=
  let carrier_name :=
    (Option.getD
      ((optFilterNonempty carrier.legal_name).orElse
        (fun _ => optFilterNonempty carrier.dba_name))
      fallback_name)
  let status := upperS (Option.getD carrier.status_code [])
  let is_status_dead : Bool := fmcsa_is_status_dead status
  let has_oos_date : Bool := fmcsa_has_oos_date carrier
  let insurance_lapsed : Bool := fmcsa_insurance_lapsed carrier
  if !is_status_dead && !has_oos_date && !insurance_lapsed then
    (none, dedup)
  else
    let dedup_key :=
      ofString "fmcsa:" ++ dot_number ++ ofString ":" ++ status
    let checked := check_and_insert cfg dedup dedup_key now
    if !checked.1 then
      (none, checked.2)
    else
      let confidence : Q :=
        fmcsa_policy_confidence status is_status_dead insurance_lapsed
      if Q.blt confidence min_confidence then
        (none, checked.2)
      else
        let classification := classify_carrier_operation
          (Option.getD carrier.carrier_operation [])
        let event :=
          { BankruptcyEvent.new carrier_name Source.Fmcsa confidence with
            dot_number := some dot_number
            mc_number := optFilterNonempty carrier.mc_number
            chapter := BankruptcyChapter.Unknown
            classification := classification
            source_url := some (saferUrl dot_number)
            court := some (ofString "FMCSA — Status: " ++ status
              ++ ofString " | "
              ++ (if insurance_lapsed then ofString "INSURANCE LAPSED"
                  else ofString "Authority Change")) }
        (some event, checked.2)

/-- `fmcsa_scanner.rs::scan_raw_carrier_text`: the raw-text fallback used
when JSON parsing fails. -/
def scan_raw_carrier_text (cfg : DedupCfg)
    (text dot_number fallback_name : Str) (min_confidence : Q)
    (dedup : DedupState) (now : Nat) :
    Option BankruptcyEvent × DedupState :=
  if !quick_freight_check text then
    (none, dedup)
  else
    let scan_result := scan_text text
    if Q.blt scan_result.confidence min_confidence then
      (none, dedup)
    else
      let upper := upperS text
      let has_death_signal :=
        containsSub upper (ofString "REVOKED")
          || containsSub upper (ofString "INACTIVE")
          || containsSub upper (ofString "OUT OF SERVICE")
          || containsSub upper (ofString "NOT AUTHORIZED")
      if !has_death_signal then
        (none, dedup)
      else
        let dedup_key := ofString "fmcsa:raw:" ++ dot_number
        let checked := check_and_insert cfg dedup dedup_key now
        if !checked.1 then
          (none, checked.2)
        else
          let event :=
            { BankruptcyEvent.new fallback_name Source.Fmcsa
                scan_result.confidence with
              dot_number := some dot_number
              classification := scan_result.classification
              court := some (ofString "FMCSA (raw text parse)")
              source_url := some (saferUrl dot_number) }
          (some event, checked.2)

/-! ### PACER scanner (`pacer_scanner.rs`) -/

/-- `extract_xml_tag`: content of the first `<tag>…</tag>` pair, with
CDATA wrappers removed and the result trimmed; empty when the tag is
absent. -/
def extract_xml_tag (xml tag : Str) : Str :=
  let opening := ofString "<" ++ tag ++ ofString ">"
  let closing := ofString "</" ++ tag ++ ofString ">"
  match findSub xml opening with
  | some start =>
    match findSub (List.drop start xml) closing with
    | some endIdx =>
      let content := slice xml (start + List.length opening) (start + endIdx)
      trimS (replaceSub (replaceSub content (ofString "<![CDATA[") [])
        (ofString "]]>") [])
    | none => []
  | none => []

/-- `extract_company_name`: strip a leading PACER case-number token (first
whitespace-delimited token containing a hyphen and a digit) and trim; if
the first token does not look like a case number, the whole title is
returned unchanged. -/
def extract_company_name (title : Str) : Str :=
  match List.findIdx? (fun c => c = ' ') title with
  | some space_idx =>
    let potential_case_num := List.take space_idx title
    if '-' ∈ potential_case_num
        ∧ potential_case_num.any (fun c => c.isDigit) then
      trimS (List.drop space_idx title)
    else title
  | none => title

/-- `detect_chapter` from `pacer_scanner.rs`. -/
def detect_chapter (text : Str) : BankruptcyChapter :=
  let upper := upperS text
  if containsSub upper (ofString "CHAPTER 7")
      || containsSub upper (ofString "CH. 7")
      || containsSub upper (ofString "CH 7")
      || containsSub upper (ofString "CH.7") then
    BankruptcyChapter.Chapter7
  else if containsSub upper (ofString "CHAPTER 11")
      || containsSub upper (ofString "CH. 11")
      || containsSub upper (ofString "CH 11")
      || containsSub upper (ofString "CH.11") then
    BankruptcyChapter.Chapter11
  else if containsSub upper (ofString "CHAPTER 13")
      || containsSub upper (ofString "CH. 13")
      || containsSub upper (ofString "CH 13")
      || containsSub upper (ofString "CH.13") then
    BankruptcyChapter.Chapter13
  else
    BankruptcyChapter.Unknown

/-- Shared body of `extract_dot_number` / `extract_mc_number`: after the
first occurrence of each pattern in turn, collect leading ASCII digits
and accept a non-empty run of at most `maxLen`. -/
def extract_number_after (upper : Str) (patterns : List Str)
    (maxLen : Nat) : Option Str :=
  match patterns with
  | [] => none
  | p :: rest =>
    match findSub upper p with
    | some idx =>
      let num := List.takeWhile (fun c => c.isDigit)
        (List.drop (idx + List.length p) upper)
      if num ≠ [] ∧ List.length num ≤ maxLen then some num
      else extract_number_after upper rest maxLen
    | none => extract_number_after upper rest maxLen

/-- `extract_dot_number` from `pacer_scanner.rs`. -/
def extract_dot_number (text : Str) : Option Str :=
  extract_number_after (upperS text)
    (List.map ofString ["USDOT# ", "USDOT #", "USDOT ", "DOT# ", "DOT #",
      "DOT "]) 8

/-- `extract_mc_number` from `pacer_scanner.rs`. -/
def extract_mc_number (text : Str) : Option Str :=
  extract_number_after (upperS text)
    (List.map ofString ["MC# ", "MC #", "MC-", "MC "]) 7

/-- Record-processing body of the PACER `run` loop for one RSS item
`(title, description, link)`: quick check, full scan, minimum-confidence
test, dedup check, event construction.  Returns the event handed to
`event_tx.try_send` (if any) and the updated dedup state.  The
`filing_date` assignment (a best-effort date parse of the description) is
outside the embedded event. -/
def pacer_process_item (cfg : DedupCfg) (court_name feed_url : Str)
    (title description link : Str) (min_confidence : Q)
    (dedup : DedupState) (now : Nat) :
    Option BankruptcyEvent × DedupState :=
  let combined_text := title ++ ofString " " ++ description
  if !quick_freight_check combined_text then
    (none, dedup)
  else
    let scan_result := scan_text combined_text
    if Q.blt scan_result.confidence min_confidence then
      (none, dedup)
    else
      let dedup_key :=
        ofString "pacer:" ++ court_name ++ ofString ":" ++ link
      let checked := check_and_insert cfg dedup dedup_key now
      if !checked.1 then
        (none, checked.2)
      else
        let company_name := extract_company_name title
        let event :=
          { BankruptcyEvent.new company_name Source.Pacer
              scan_result.confidence with
            court := some court_name
            chapter := detect_chapter combined_text
            classification := scan_result.classification
            source_url := some (if link = [] then feed_url else link)
            dot_number := extract_dot_number combined_text
            mc_number := extract_mc_number combined_text }
        (some event, checked.2)

/-! ### Batching publisher (`publisher.rs`)

The broker is modelled by two oracles indexed by the position of an event
inside the batch: `pubOk i` tells whether the `PUBLISH` of the `i`-th
event succeeds, `zaddOk i` whether its `ZADD` does.  JSON serialization
(`serde_json::to_string`) never fails on these events and is modelled as
always succeeding. -/

/-- The atomic counters of `publisher.rs::PublisherStats`. -/
structure PublisherStats where
  events_published : Nat
  events_persisted : Nat
  publish_errors : Nat
  batches_sent : Nat
deriving DecidableEq, Repr

/-- `RedisPublisher::publish_batch` from position `i` on: per event,
`PUBLISH` (counting `events_published`) then `ZADD` (counting
`events_persisted`); the first failing command aborts the whole call with
`Err`, keeping the counts already recorded.  On success `batches_sent` is
incremented.  The `Bool` is `true` iff the call returned `Ok`. -/
def publish_batch (pubOk zaddOk : Nat → Bool) :
    List BankruptcyEvent → Nat → PublisherStats → PublisherStats × Bool
  | [], _, stats =>
    ({ stats with batches_sent := stats.batches_sent + 1 }, true)
  | _e :: rest, i, stats =>
    if pubOk i then
      let stats :=
        { stats with events_published := stats.events_published + 1 }
      if zaddOk i then
        publish_batch pubOk zaddOk rest (i + 1)
          { stats with events_persisted := stats.events_persisted + 1 }
      else (stats, false)
    else (stats, false)

/-- One non-empty-batch iteration of `RedisPublisher::run`: publish the
batch; on `Err`, add the whole batch length to `publish_errors` and
continue. -/
def publisher_cycle (pubOk zaddOk : Nat → Bool)
    (batch : List BankruptcyEvent) (stats : PublisherStats) :
    PublisherStats :=
  let out := publish_batch pubOk zaddOk batch 0 stats
  if out.2 then out.1
  else
    { out.1 with
      publish_errors := out.1.publish_errors + List.length batch }

/-- Successive iterations of the `run` loop over a list of drained
batches, each with its own broker behaviour; a failed batch is never
retried and the loop moves on to the next batch. -/
def publisher_run :
    List ((Nat → Bool) × (Nat → Bool) × List BankruptcyEvent) →
    PublisherStats → PublisherStats
  | [], stats => stats
  | (pubOk, zaddOk, batch) :: rest, stats =>
    publisher_run rest (publisher_cycle pubOk zaddOk batch stats)

/-! ### Shared concrete instances for witnesses and counterexamples -/

/-- A `DedupEngine::new`-style configuration with the default filter
parameters, a chosen LRU capacity, and the ideal (never-false-positive)
Bloom oracle — one admissible behaviour of the real filter. -/
def testCfg (cap : Nat) : DedupCfg :=
  ⟨100000, Q.frac 1 100, cap, 3600, fun _ _ => false⟩

/-! ### Claims -/

/-- The thirteen marker strings actually probed by
`quick_freight_check`, in source order. -/
def quickCheckMarkers : List Str := List.map ofString [
  "freight", "Freight", "FREIGHT", "truck", "Truck", "carrier",
  "Carrier", "logistics", "Logistics", "3pl", "3PL", "broker", "Broker"]

/-- C2 (amended): `quick_freight_check(text)` returns `true` iff `text`
contains one of the markers `freight`, `truck`, `carrier`, `logistics`,
`3pl`, `broker` in the exact forms probed by the code — lowercase and
capitalised for each, plus all-caps `FREIGHT` and `3PL`.  The markers
`bankrupt` and `chapter` named by the spec are not probed. -/
theorem claim_c2_quick_check_markers (text : Str) :
    quick_freight_check text
      = quickCheckMarkers.any (fun m => containsSub text m) := by
  simp only [quickCheckMarkers, List.map_cons, List.map_nil, List.any_cons,
    List.any_nil, Bool.or_false]
  unfold quick_freight_check
  simp only [Bool.or_assoc]

/-- C2 counterexample: the text `bankrupt` contains the claimed marker
`bankrupt`, yet `quick_freight_check` returns `false` on it. -/
theorem claim_c2_counterexample :
    containsSub (ofString "bankrupt") (ofString "bankrupt") = true
      ∧ quick_freight_check (ofString "bankrupt") = false := by decide

/-- C3 (amended): `scan_text` returns the all-zero result on every text
rejected by its own early gate `hasPotential` (twelve probes over
`freight`/`truck`/`carrier`/`bankrupt`/`chapter`/`logistics` forms); that
gate is not the same predicate as `quick_freight_check`. -/
theorem claim_c3_gate_zero (text : Str) (h : hasPotential text = false) :
    scan_text text = zeroScan := by
  unfold scan_text
  rw [h]
  split <;> rfl

/-- C3 witness: a gate-rejected text on which `scan_text` is the zero
result. -/
theorem claim_c3_gate_zero_witness :
    hasPotential (ofString "the cat sat on the mat") = false
      ∧ scan_text (ofString "the cat sat on the mat") = zeroScan :=
  ⟨by decide, claim_c3_gate_zero _ (by decide)⟩

/-- C3 counterexample: `quick_freight_check "bankrupt"` is `false`, yet
`scan_text "bankrupt"` is not the zero result (the automaton matches the
keyword `bankrupt` and the confidence is positive), so scan's early gate
does not accept exactly the `quick_freight_check` texts. -/
theorem claim_c3_counterexample :
    quick_freight_check (ofString "bankrupt") = false
      ∧ scan_text (ofString "bankrupt") ≠ zeroScan := by decide

/-- C5 (amended): breaker accounting differs per poller.  The PACER loop
records a failure exactly when `fetch_and_parse_feed` returns `Err`,
which happens for transport errors, for **every** non-2xx status
(including and beyond 429), and for body-read errors.  The FMCSA
`check_carrier` records a failure only for transport errors and records a
success the moment any response arrives, whatever its status — an HTTP
429 is counted as a breaker success there. -/
theorem claim_c5_breaker_accounting (status : Nat) (bodyOk : Bool) :
    pacer_breaker_calls FetchOutcome.transportError
        = [BreakerCall.recordedFailure]
    ∧ pacer_breaker_calls (FetchOutcome.response status bodyOk)
        = (if http_is_success status && bodyOk
            then [BreakerCall.recordedSuccess]
            else [BreakerCall.recordedFailure])
    ∧ fmcsa_breaker_calls FetchOutcome.transportError
        = [BreakerCall.recordedFailure]
    ∧ fmcsa_breaker_calls (FetchOutcome.response status bodyOk)
        = [BreakerCall.recordedSuccess] := by
  refine ⟨rfl, ?_, rfl, rfl⟩
  simp only [pacer_breaker_calls, fetch_and_parse_feed_is_err]
  rcases Bool.eq_false_or_eq_true (http_is_success status) with hs | hs <;>
    cases bodyOk <;> simp [hs]

/-- C5 counterexample: an HTTP 429 response in the FMCSA poller records a
breaker success (the claim demands a failure), while an HTTP 500 in the
PACER poller records a breaker failure (the claim demands none). -/
theorem claim_c5_counterexample :
    fmcsa_breaker_calls (FetchOutcome.response 429 true)
        = [BreakerCall.recordedSuccess]
    ∧ pacer_breaker_calls (FetchOutcome.response 500 true)
        = [BreakerCall.recordedFailure] := by decide

/-- `publish_batch` never touches the `publish_errors` counter. -/
theorem publish_batch_publish_errors (p z : Nat → Bool) :
    ∀ (batch : List BankruptcyEvent) (i : Nat) (stats : PublisherStats),
      (publish_batch p z batch i stats).1.publish_errors
        = stats.publish_errors
  | [], _, _ => rfl
  | _e :: rest, i, stats => by
    unfold publish_batch
    by_cases hp : p i
    · by_cases hz : z i
      · simp only [hp, hz, if_true]
        exact publish_batch_publish_errors p z rest (i + 1) _
      · simp [hp, hz]
    · simp [hp]

/-- C8 (amended): a batch whose publish fails is not retried and the
loop continues with the next batch unchanged; but on failure the
publish-error counter is incremented by the **full batch length** —
items of the batch that had already been published before the failing
command are counted too. -/
theorem claim_c8_error_accounting (p z : Nat → Bool)
    (batch : List BankruptcyEvent)
    (rest : List ((Nat → Bool) × (Nat → Bool) × List BankruptcyEvent))
    (stats : PublisherStats) :
    (publisher_cycle p z batch stats).publish_errors
      = stats.publish_errors
        + (if (publish_batch p z batch 0 stats).2 then 0
           else List.length batch)
    ∧ publisher_run ((p, z, batch) :: rest) stats
      = publisher_run rest (publisher_cycle p z batch stats) := by
  constructor
  · unfold publisher_cycle
    by_cases h : (publish_batch p z batch 0 stats).2 <;>
      simp [h, publish_batch_publish_errors]
  · rfl

/-- A batch item for the publisher counterexample. -/
def evA : BankruptcyEvent :=
  BankruptcyEvent.new (ofString "Acme Freight") Source.Pacer (Q.frac 1 2)

/-- A second batch item for the publisher counterexample. -/
def evB : BankruptcyEvent :=
  BankruptcyEvent.new (ofString "Big Truck Co") Source.Pacer (Q.frac 1 2)

/-- C8 counterexample: in a batch of two where the first event publishes
fully and the second event's `PUBLISH` fails, exactly one item failed,
yet the error counter rises by 2 (`events_published = 1` certifies that
the first item had already been published). -/
theorem claim_c8_counterexample :
    publisher_cycle (fun i => decide (i = 0)) (fun _ => true) [evA, evB]
        ⟨0, 0, 0, 0⟩
      = ⟨1, 1, 2, 0⟩ := by decide

/-- From a `HalfOpen` state, a run of `record_success` calls whose length
completes the success threshold ends `Closed` with both counters
cleared. -/
theorem cb_success_run (cfg : CBConfig) :
    ∀ (ts : List Nat) (s : CBInner), s.state = CircuitState.HalfOpen →
      s.success_count + ts.length = cfg.success_threshold →
      1 ≤ ts.length →
      (cbRun cfg s (ts.map CBOp.success)).state = CircuitState.Closed
      ∧ (cbRun cfg s (ts.map CBOp.success)).failure_count = 0
      ∧ (cbRun cfg s (ts.map CBOp.success)).success_count = 0 := by
  intro ts
  induction ts with
  | nil =>
    intro s _ _ hlen
    exact absurd hlen (by simp)
  | cons t ts ih =>
    intro s hst hcount _
    obtain ⟨st, fc, sc, lf, lsc, tt⟩ := s
    simp only at hst
    subst hst
    simp only [List.length_cons] at hcount
    have hrun : cbRun cfg ⟨CircuitState.HalfOpen, fc, sc, lf, lsc, tt⟩
        ((t :: ts).map CBOp.success)
        = cbRun cfg
            (record_success cfg ⟨CircuitState.HalfOpen, fc, sc, lf, lsc, tt⟩ t)
            (ts.map CBOp.success) := rfl
    rw [hrun]
    cases ts with
    | nil =>
      simp only [List.length_nil] at hcount
      have hclose : sc + 1 ≥ cfg.success_threshold := by omega
      simp [record_success, hclose, cbRun]
    | cons t2 ts2 =>
      have hopen : ¬ sc + 1 ≥ cfg.success_threshold := by
        simp only [List.length_cons] at hcount ⊢
        omega
      have hstep : record_success cfg
          ⟨CircuitState.HalfOpen, fc, sc, lf, lsc, tt⟩ t
          = ⟨CircuitState.HalfOpen, fc, sc + 1, lf, lsc, tt⟩ := by
        simp [record_success, hopen]
      rw [hstep]
      refine ih _ rfl ?_ (by simp)
      simp only [List.length_cons] at hcount ⊢
      omega

/-- C4: for a breaker that is `Open` with the reset timeout elapsed since
the recorded failure instant, the first `allow_request` returns `true`
and moves to `HalfOpen` with the half-open success counter cleared; a run
of `success_threshold` consecutive `record_success` calls then closes it
with all counters cleared; and a single `record_failure` while `HalfOpen`
re-opens it and increments the trip count. -/
theorem claim_c4_half_open_cycle (cfg : CBConfig) (s : CBInner)
    (t now : Nat) (hOpen : s.state = CircuitState.Open)
    (hLast : s.last_failure_time = some t)
    (hElapsed : cfg.reset_timeout ≤ now - t)
    (hTh : 1 ≤ cfg.success_threshold) :
    (allow_request cfg s now).1 = true
    ∧ (allow_request cfg s now).2.state = CircuitState.HalfOpen
    ∧ (allow_request cfg s now).2.success_count = 0
    ∧ (∀ ts : List Nat, ts.length = cfg.success_threshold →
        (cbRun cfg (allow_request cfg s now).2 (ts.map CBOp.success)).state
            = CircuitState.Closed
        ∧ (cbRun cfg (allow_request cfg s now).2
            (ts.map CBOp.success)).failure_count = 0
        ∧ (cbRun cfg (allow_request cfg s now).2
            (ts.map CBOp.success)).success_count = 0)
    ∧ (∀ now2,
        (record_failure cfg (allow_request cfg s now).2 now2).state
            = CircuitState.Open
        ∧ (record_failure cfg (allow_request cfg s now).2 now2).total_trips
            = s.total_trips + 1) := by
  obtain ⟨st, fc, sc, lf, lsc, tt⟩ := s
  simp only at hOpen hLast
  subst hOpen
  subst hLast
  have hallow : allow_request cfg
      ⟨CircuitState.Open, fc, sc, some t, lsc, tt⟩ now
      = (true, ⟨CircuitState.HalfOpen, fc, 0, some t, now, tt⟩) := by
    simp [allow_request, hElapsed]
  rw [hallow]
  refine ⟨rfl, rfl, rfl, ?_, ?_⟩
  · intro ts hts
    refine cb_success_run cfg ts _ rfl ?_ (by omega)
    show 0 + ts.length = cfg.success_threshold
    omega
  · intro now2
    constructor <;> simp [record_failure]

/-- Breaker configuration for the C4 witness (threshold 3, reset 5 s,
success threshold 2 — the S4 scenario of the spec). -/
def cbCfgW : CBConfig := ⟨3, 5, 2⟩

/-- An `Open` breaker state with a failure recorded at instant 10. -/
def cbOpenW : CBInner := ⟨CircuitState.Open, 3, 0, some 10, 10, 1⟩

/-- C4 witness: at instant 15 the reset timeout (5 s) has elapsed, the
allow succeeds into `HalfOpen`, two successes close the breaker, and a
failure in `HalfOpen` re-opens it with the trip count incremented. -/
theorem claim_c4_witness :
    (allow_request cbCfgW cbOpenW 15).1 = true
    ∧ (allow_request cbCfgW cbOpenW 15).2.state = CircuitState.HalfOpen
    ∧ (cbRun cbCfgW (allow_request cbCfgW cbOpenW 15).2
        ([16, 17].map CBOp.success)).state = CircuitState.Closed
    ∧ (record_failure cbCfgW (allow_request cbCfgW cbOpenW 15).2 16).state
        = CircuitState.Open
    ∧ (record_failure cbCfgW
        (allow_request cbCfgW cbOpenW 15).2 16).total_trips
        = cbOpenW.total_trips + 1 :=
  ⟨(claim_c4_half_open_cycle cbCfgW cbOpenW 10 15 (by decide) (by decide)
      (by decide) (by decide)).1,
   (claim_c4_half_open_cycle cbCfgW cbOpenW 10 15 (by decide) (by decide)
      (by decide) (by decide)).2.1,
   ((claim_c4_half_open_cycle cbCfgW cbOpenW 10 15 (by decide) (by decide)
      (by decide) (by decide)).2.2.2.1 [16, 17] (by decide)).1,
   ((claim_c4_half_open_cycle cbCfgW cbOpenW 10 15 (by decide) (by decide)
      (by decide) (by decide)).2.2.2.2 16).1,
   ((claim_c4_half_open_cycle cbCfgW cbOpenW 10 15 (by decide) (by decide)
      (by decide) (by decide)).2.2.2.2 16).2⟩

/-- The C10 invariant: an `Open` breaker has a recorded failure time. -/
def cbOpenHasFailureTime (s : CBInner) : Prop :=
  s.state = CircuitState.Open → s.last_failure_time ≠ none

/-- Every public breaker operation preserves the C10 invariant. -/
theorem cbStep_preserves_inv (cfg : CBConfig) (s : CBInner) (op : CBOp)
    (h : cbOpenHasFailureTime s) : cbOpenHasFailureTime (cbStep cfg s op) := by
  obtain ⟨st, fc, sc, lf, lsc, tt⟩ := s
  cases op with
  | allow now =>
    cases st with
    | Closed => exact h
    | HalfOpen => exact h
    | Open =>
      cases lf with
      | none => exact h
      | some t =>
        by_cases ht : now - t ≥ cfg.reset_timeout <;>
          simp [cbStep, allow_request, ht, cbOpenHasFailureTime]
  | success now =>
    cases st with
    | Closed =>
      intro hst
      simp [cbStep, record_success] at hst
    | Open => exact h
    | HalfOpen =>
      by_cases hs : sc + 1 ≥ cfg.success_threshold <;>
        simp [cbStep, record_success, hs, cbOpenHasFailureTime]
  | failure now =>
    cases st with
    | Closed =>
      by_cases hf : fc + 1 ≥ cfg.failure_threshold <;>
        simp [cbStep, record_failure, hf, cbOpenHasFailureTime]
    | HalfOpen => simp [cbStep, record_failure, cbOpenHasFailureTime]
    | Open => simp [cbStep, record_failure, cbOpenHasFailureTime]

/-- Any run of public operations preserves the C10 invariant. -/
theorem cbRun_preserves_inv (cfg : CBConfig) :
    ∀ (ops : List CBOp) (s : CBInner), cbOpenHasFailureTime s →
      cbOpenHasFailureTime (cbRun cfg s ops)
  | [], _, h => h
  | op :: ops, s, h =>
    cbRun_preserves_inv cfg ops (cbStep cfg s op)
      (cbStep_preserves_inv cfg s op h)

/-- C10: in every breaker state reachable from construction by any
sequence of `allow_request`, `record_success` and `record_failure` calls,
`Open` implies a recorded `last_failure_time`, so the defensive
`allow_request` branch for `Open`-without-failure-time is never taken on
reachable states. -/
theorem claim_c10_open_implies_failure_time (cfg : CBConfig) (t0 : Nat)
    (ops : List CBOp)
    (h : (cbRun cfg (CircuitBreaker.init t0) ops).state = CircuitState.Open) :
    (cbRun cfg (CircuitBreaker.init t0) ops).last_failure_time ≠ none :=
  cbRun_preserves_inv cfg ops (CircuitBreaker.init t0)
    (fun hst => by simp [CircuitBreaker.init] at hst) h

/-- C10 witness: with failure threshold 1, a single failure reaches
`Open` and the invariant instantiates there. -/
theorem claim_c10_witness :
    (cbRun ⟨1, 5, 1⟩ (CircuitBreaker.init 0) [CBOp.failure 3]).state
        = CircuitState.Open
    ∧ (cbRun ⟨1, 5, 1⟩ (CircuitBreaker.init 0)
        [CBOp.failure 3]).last_failure_time ≠ none :=
  ⟨by decide,
   claim_c10_open_implies_failure_time ⟨1, 5, 1⟩ 0 [CBOp.failure 3]
     (by decide)⟩

/-- C1 (amended): `check_and_insert` on a freshly constructed engine
returns `true` for any key at any instant; and a later call with the same
key returns `false` provided no rotation fires at that call and the key
is still resident in both the filter and the LRU cache — in particular as
long as fewer than `cache_capacity` distinct other keys were inserted in
between.  (The unqualified claim fails: once the key is evicted from the
LRU by capacity pressure, the Bloom "maybe" is treated as a false
positive and the duplicate is re-admitted.) -/
theorem claim_c1_dedup_idempotence (cfg : DedupCfg) (t0 now now2 : Nat)
    (k : Str) (s : DedupState) (hlru : k ∈ s.lru)
    (hbloom : k ∈ s.bloomKeys)
    (hwin : now2 - s.last_rotation < cfg.rotation_interval_secs) :
    (check_and_insert cfg (DedupEngine.new t0) k now).1 = true
    ∧ (check_and_insert cfg s k now2).1 = false := by
  constructor
  · unfold check_and_insert maybe_rotate DedupEngine.new
    by_cases hr : now - t0 ≥ cfg.rotation_interval_secs <;>
      by_cases hfp : cfg.fp [] k = true <;>
        simp [bloomCheck, hr, hfp]
  · unfold check_and_insert maybe_rotate
    have hnr : ¬ now2 - s.last_rotation ≥ cfg.rotation_interval_secs := by
      omega
    simp [hnr, bloomCheck, hbloom, hlru]

/-- The dedup state after one insertion of key `k` into a fresh engine
with LRU capacity 2. -/
def c1State : DedupState :=
  (check_and_insert (testCfg 2) (DedupEngine.new 0) (ofString "k") 0).2

/-- C1 witness: on the capacity-2 engine, the first call with `k` returns
`true`; with `k` still resident in filter and cache and no rotation due,
the second call returns `false`. -/
theorem claim_c1_witness :
    (ofString "k") ∈ c1State.lru
    ∧ (ofString "k") ∈ c1State.bloomKeys
    ∧ 0 - c1State.last_rotation < (testCfg 2).rotation_interval_secs
    ∧ (check_and_insert (testCfg 2) (DedupEngine.new 0) (ofString "k") 0).1
        = true
    ∧ (check_and_insert (testCfg 2) c1State (ofString "k") 0).1 = false :=
  ⟨by decide, by decide, by decide,
   (claim_c1_dedup_idempotence (testCfg 2) 0 0 0 (ofString "k") c1State
      (by decide) (by decide) (by decide)).1,
   (claim_c1_dedup_idempotence (testCfg 2) 0 0 0 (ofString "k") c1State
      (by decide) (by decide) (by decide)).2⟩

/-- C1 counterexample: with LRU capacity 1 and no rotation in between,
the calls `a`, `b`, `a` return `true`, `true`, `true`: inserting the
single distinct key `b` evicts `a` from the cache, so the third call —
a subsequent call with `a` inside the same rotation window — returns
`true`, where the claim requires `false` regardless of how many distinct
keys intervene. -/
theorem claim_c1_counterexample :
    (check_and_insert (testCfg 1)
      ((check_and_insert (testCfg 1)
        ((check_and_insert (testCfg 1) (DedupEngine.new 0)
          (ofString "a") 0).2)
        (ofString "b") 0).2)
      (ofString "a") 0).1 = true := by decide

/-- `check_and_insert` always increments the `checks` counter. -/
theorem check_and_insert_checks (cfg : DedupCfg) (s : DedupState) (k : Str)
    (now : Nat) :
    (check_and_insert cfg s k now).2.checks = s.checks + 1 := by
  unfold check_and_insert maybe_rotate
  by_cases hr : now - s.last_rotation ≥ cfg.rotation_interval_secs <;>
    simp only [hr, if_true, if_false, reduceIte] <;>
      split <;> (try split) <;> rfl

/-- `check_and_insert` never returns the state it was given. -/
theorem check_and_insert_ne (cfg : DedupCfg) (s : DedupState) (k : Str)
    (now : Nat) : (check_and_insert cfg s k now).2 ≠ s := by
  intro hEq
  have h := check_and_insert_checks cfg s k now
  rw [hEq] at h
  omega

/-- C6: every event emitted by the JSON path of `check_carrier` carries
source `Fmcsa`, chapter `Unknown`, the probed DOT number, and a
confidence drawn from the policy table — never from the classifier:
`REVOKED ↦ 0.90`, `OUT OF SERVICE ↦ 0.85`, `INACTIVE ↦ 0.80`,
`NOT AUTHORIZED ↦ 0.85`, any other dead status `↦ 0.75`, and an
insurance lapse without a dead status `↦ 0.70`. -/
theorem claim_c6_policy_confidence (cfg : DedupCfg)
    (carrier : QcMobileCarrier) (dot_number fallback_name : Str)
    (min_confidence : Q) (dedup : DedupState) (now : Nat)
    (e : BankruptcyEvent) (s' : DedupState) (status : Str)
    (hstatus : status = upperS (Option.getD carrier.status_code []))
    (h : check_carrier_record cfg carrier dot_number fallback_name
        min_confidence dedup now = (some e, s')) :
    e.source = Source.Fmcsa
    ∧ e.chapter = BankruptcyChapter.Unknown
    ∧ e.dot_number = some dot_number
    ∧ e.confidence_score
        = fmcsa_policy_confidence status (fmcsa_is_status_dead status)
            (fmcsa_insurance_lapsed carrier)
    ∧ (status = ofString "REVOKED" →
        e.confidence_score = Q.frac 90 100)
    ∧ (status = ofString "OUT OF SERVICE" →
        e.confidence_score = Q.frac 85 100)
    ∧ (status = ofString "INACTIVE" →
        e.confidence_score = Q.frac 80 100)
    ∧ (status = ofString "NOT AUTHORIZED" →
        e.confidence_score = Q.frac 85 100)
    ∧ (fmcsa_is_status_dead status = true →
        status ≠ ofString "REVOKED" → status ≠ ofString "OUT OF SERVICE" →
        status ≠ ofString "INACTIVE" → status ≠ ofString "NOT AUTHORIZED" →
        e.confidence_score = Q.frac 75 100)
    ∧ (fmcsa_is_status_dead status = false →
        fmcsa_insurance_lapsed carrier = true →
        e.confidence_score = Q.frac 70 100) := by
  subst hstatus
  simp only [check_carrier_record] at h
  split at h
  · exact absurd h (by simp)
  · split at h
    · exact absurd h (by simp)
    · split at h
      · exact absurd h (by simp)
      · rw [Prod.mk.injEq] at h
        obtain ⟨he, _⟩ := h
        injection he with he
        have hconf : e.confidence_score
            = fmcsa_policy_confidence
                (upperS (Option.getD carrier.status_code []))
                (fmcsa_is_status_dead
                  (upperS (Option.getD carrier.status_code [])))
                (fmcsa_insurance_lapsed carrier) := by rw [← he] <;> rfl
        refine ⟨by rw [← he] <;> rfl, by rw [← he] <;> rfl,
          by rw [← he] <;> rfl, hconf, ?_, ?_, ?_, ?_, ?_, ?_⟩
        · intro hst
          rw [hconf, hst]
          have hd : fmcsa_is_status_dead (ofString "REVOKED") = true := by
            decide
          rw [hd]
          exact (by decide : ∀ l, fmcsa_policy_confidence
            (ofString "REVOKED") true l = Q.frac 90 100) _
        · intro hst
          rw [hconf, hst]
          have hd : fmcsa_is_status_dead (ofString "OUT OF SERVICE")
              = true := by decide
          rw [hd]
          exact (by decide : ∀ l, fmcsa_policy_confidence
            (ofString "OUT OF SERVICE") true l = Q.frac 85 100) _
        · intro hst
          rw [hconf, hst]
          have hd : fmcsa_is_status_dead (ofString "INACTIVE") = true := by
            decide
          rw [hd]
          exact (by decide : ∀ l, fmcsa_policy_confidence
            (ofString "INACTIVE") true l = Q.frac 80 100) _
        · intro hst
          rw [hconf, hst]
          have hd : fmcsa_is_status_dead (ofString "NOT AUTHORIZED")
              = true := by decide
          rw [hd]
          exact (by decide : ∀ l, fmcsa_policy_confidence
            (ofString "NOT AUTHORIZED") true l = Q.frac 85 100) _
        · intro hdead h1 h2 h3 h4
          rw [hconf]
          simp [fmcsa_policy_confidence, hdead, h1, h2, h3, h4]
        · intro hdead hlaps
          rw [hconf, hdead, hlaps]
          simp [fmcsa_policy_confidence]

/-- The carrier record of the S6 scenario: DOT 2239788 with
`status_code = REVOKED`. -/
def carrierRevokedW : QcMobileCarrier :=
  ⟨some (ofString "Convoy Inc"), none, some (ofString "2239788"), none,
   none, some (ofString "REVOKED"), none, none, none⟩

/-- The event emitted for `carrierRevokedW`. -/
def c6eventW : BankruptcyEvent where
  company_name := ofString "Convoy Inc"
  dot_number := some (ofString "2239788")
  mc_number := none
  court := some (ofString "FMCSA — Status: REVOKED | Authority Change")
  chapter := BankruptcyChapter.Unknown
  source := Source.Fmcsa
  confidence_score := Q.frac 90 100
  classification := CompanyClassification.Carrier
  source_url := some (saferUrl (ofString "2239788"))

/-- The dedup key consumed by the S6 scenario. -/
def c6keyW : Str := ofString "fmcsa:2239788:REVOKED"

/-- The dedup state after the S6 scenario. -/
def c6stateW : DedupState := ⟨[c6keyW], [c6keyW], 0, 1, 1, 0, 0, 0⟩

/-- C6 witness (S6): a REVOKED record for DOT 2239788 at the default
minimum confidence 0.3 yields exactly one event with source `Fmcsa`,
confidence 0.90, `dot_number = "2239788"` and chapter `Unknown`. -/
theorem claim_c6_witness :
    check_carrier_record (testCfg 10000) carrierRevokedW
        (ofString "2239788") (ofString "Convoy Inc") (Q.frac 3 10)
        (DedupEngine.new 0) 0
      = (some c6eventW, c6stateW)
    ∧ c6eventW.source = Source.Fmcsa
    ∧ c6eventW.confidence_score = Q.frac 90 100
    ∧ c6eventW.dot_number = some (ofString "2239788")
    ∧ c6eventW.chapter = BankruptcyChapter.Unknown := by
  have h : check_carrier_record (testCfg 10000) carrierRevokedW
      (ofString "2239788") (ofString "Convoy Inc") (Q.frac 3 10)
      (DedupEngine.new 0) 0 = (some c6eventW, c6stateW) := by decide
  have hc := claim_c6_policy_confidence (testCfg 10000) carrierRevokedW
    (ofString "2239788") (ofString "Convoy Inc") (Q.frac 3 10)
    (DedupEngine.new 0) 0 c6eventW c6stateW
    (upperS (Option.getD carrierRevokedW.status_code [])) rfl h
  exact ⟨h, hc.1, hc.2.2.2.2.1 (by decide), hc.2.2.1, hc.2.1⟩

/-- C7 (amended): the PACER loop and the FMCSA raw-text fallback consult
the deduplicator only after the minimum-confidence test, leaving the
dedup state untouched for a below-threshold record; but the FMCSA JSON
death-signal path consults the deduplicator **before** computing and
testing the policy confidence, so a below-threshold record there still
mutates the dedup state (its key is consumed). -/
theorem claim_c7_dedup_after_confidence :
    (∀ (cfg : DedupCfg) (court feed title desc link : Str) (minConf : Q)
        (dedup : DedupState) (now : Nat),
      Q.blt (scan_text (title ++ ofString " " ++ desc)).confidence minConf
          = true →
      pacer_process_item cfg court feed title desc link minConf dedup now
          = (none, dedup))
    ∧ (∀ (cfg : DedupCfg) (text dot fb : Str) (minConf : Q)
        (dedup : DedupState) (now : Nat),
      Q.blt (scan_text text).confidence minConf = true →
      scan_raw_carrier_text cfg text dot fb minConf dedup now
          = (none, dedup))
    ∧ (∀ (cfg : DedupCfg) (carrier : QcMobileCarrier) (dot fb : Str)
        (minConf : Q) (dedup : DedupState) (now : Nat),
      (fmcsa_is_status_dead (upperS (Option.getD carrier.status_code []))
        || fmcsa_has_oos_date carrier
        || fmcsa_insurance_lapsed carrier) = true →
      Q.blt (fmcsa_policy_confidence
          (upperS (Option.getD carrier.status_code []))
          (fmcsa_is_status_dead
            (upperS (Option.getD carrier.status_code [])))
          (fmcsa_insurance_lapsed carrier)) minConf = true →
      check_carrier_record cfg carrier dot fb minConf dedup now
          = (none,
             (check_and_insert cfg dedup
               (ofString "fmcsa:" ++ dot ++ ofString ":"
                 ++ upperS (Option.getD carrier.status_code [])) now).2)
      ∧ (check_and_insert cfg dedup
          (ofString "fmcsa:" ++ dot ++ ofString ":"
            ++ upperS (Option.getD carrier.status_code [])) now).2
          ≠ dedup) := by
  refine ⟨?_, ?_, ?_⟩
  · intro cfg court feed title desc link minConf dedup now hblt
    unfold pacer_process_item
    by_cases hq :
        quick_freight_check (title ++ ofString " " ++ desc) = true <;>
      simp [hq, hblt]
  · intro cfg text dot fb minConf dedup now hblt
    unfold scan_raw_carrier_text
    by_cases hq : quick_freight_check text = true <;> simp [hq, hblt]
  · intro cfg carrier dot fb minConf dedup now hsig hblt
    have hne := check_and_insert_ne cfg dedup
      (ofString "fmcsa:" ++ dot ++ ofString ":"
        ++ upperS (Option.getD carrier.status_code [])) now
    refine ⟨?_, hne⟩
    unfold check_carrier_record
    have hcond : (!fmcsa_is_status_dead
          (upperS (Option.getD carrier.status_code []))
        && !fmcsa_has_oos_date carrier
        && !fmcsa_insurance_lapsed carrier) = false := by
      simp only [Bool.or_eq_true] at hsig
      rcases hsig with (hx | hx) | hx <;> simp [hx]
    simp only [hcond]
    by_cases hck : (check_and_insert cfg dedup
        (ofString "fmcsa:" ++ dot ++ ofString ":"
          ++ upperS (Option.getD carrier.status_code [])) now).1
        = true <;>
      simp [hck, hblt]

/-- The carrier record for the C7 counterexample and witness: status
`INACTIVE` (policy confidence 0.80). -/
def carrierInactiveW : QcMobileCarrier :=
  ⟨some (ofString "Swift Transportation"), none, some (ofString "298894"),
   none, none, some (ofString "INACTIVE"), none, none, none⟩

/-- C7 witness: a below-threshold PACER item leaves the dedup state
unchanged, and a below-threshold FMCSA JSON record (INACTIVE at 0.80
against minimum confidence 0.85) still consumes its dedup key. -/
theorem claim_c7_witness :
    pacer_process_item (testCfg 10000) (ofString "Delaware")
        (ofString "feed") (ofString "t") (ofString "freight")
        (ofString "link") (Q.ofNat 1) (DedupEngine.new 0) 0
      = (none, DedupEngine.new 0)
    ∧ scan_raw_carrier_text (testCfg 10000) (ofString "freight")
        (ofString "298894") (ofString "Swift Transportation") (Q.ofNat 1)
        (DedupEngine.new 0) 0
      = (none, DedupEngine.new 0)
    ∧ check_carrier_record (testCfg 10000) carrierInactiveW
        (ofString "298894") (ofString "Swift Transportation")
        (Q.frac 85 100) (DedupEngine.new 0) 0
      = (none,
         (check_and_insert (testCfg 10000) (DedupEngine.new 0)
           (ofString "fmcsa:" ++ ofString "298894" ++ ofString ":"
             ++ upperS (Option.getD carrierInactiveW.status_code [])) 0).2) :=
  ⟨claim_c7_dedup_after_confidence.1 (testCfg 10000) (ofString "Delaware")
     (ofString "feed") (ofString "t") (ofString "freight") (ofString "link")
     (Q.ofNat 1) (DedupEngine.new 0) 0 (by decide),
   claim_c7_dedup_after_confidence.2.1 (testCfg 10000) (ofString "freight")
     (ofString "298894") (ofString "Swift Transportation") (Q.ofNat 1)
     (DedupEngine.new 0) 0 (by decide),
   (claim_c7_dedup_after_confidence.2.2 (testCfg 10000) carrierInactiveW
     (ofString "298894") (ofString "Swift Transportation") (Q.frac 85 100)
     (DedupEngine.new 0) 0 (by decide) (by decide)).1⟩

/-- C7 counterexample: processing the INACTIVE record (policy confidence
0.80, below the 0.85 minimum) emits no event yet changes the
deduplicator's state — its filter, cache and counters are not left
unchanged, so the key cannot be emitted later. -/
theorem claim_c7_counterexample :
    (check_carrier_record (testCfg 10000) carrierInactiveW
      (ofString "298894") (ofString "Swift Transportation")
      (Q.frac 85 100) (DedupEngine.new 0) 0).1 = none
    ∧ (check_carrier_record (testCfg 10000) carrierInactiveW
        (ofString "298894") (ofString "Swift Transportation")
        (Q.frac 85 100) (DedupEngine.new 0) 0).2 ≠ DedupEngine.new 0 := by
  decide

/-- `trimS` in terms of `List.rdropWhile`. -/
theorem trimS_eq_rdropWhile (l : Str) :
    trimS l = List.rdropWhile isWs (List.dropWhile isWs l) := rfl

/-- A trimmed string has no leading whitespace. -/
theorem dropWhile_trimS (l : Str) :
    List.dropWhile isWs (trimS l) = trimS l := by
  rw [trimS_eq_rdropWhile, List.dropWhile_eq_self_iff]
  intro hl
  have hp := List.rdropWhile_prefix isWs (List.dropWhile isWs l)
  have hlen : 0 < (List.dropWhile isWs l).length :=
    lt_of_lt_of_le hl hp.length_le
  have h0 : (List.rdropWhile isWs (List.dropWhile isWs l)).get ⟨0, hl⟩
      = (List.dropWhile isWs l).get ⟨0, hlen⟩ := by
    rw [List.get_eq_getElem, List.get_eq_getElem]
    exact hp.getElem hl
  rw [h0]
  exact List.dropWhile_get_zero_not isWs l hlen

/-- Rust `trim` is idempotent. -/
theorem trimS_idem (l : Str) : trimS (trimS l) = trimS l := by
  rw [trimS_eq_rdropWhile (trimS l), dropWhile_trimS,
    trimS_eq_rdropWhile l, List.rdropWhile_idempotent,
    ← trimS_eq_rdropWhile]

/-- A non-whitespace member survives `dropWhile isWs`. -/
theorem mem_dropWhile_of_not_ws {c : Char} (hc : isWs c = false) :
    ∀ {l : Str}, c ∈ l → c ∈ List.dropWhile isWs l := by
  intro l
  induction l with
  | nil => intro h; cases h
  | cons a as ih =>
    intro h
    rw [List.dropWhile_cons]
    by_cases ha : isWs a = true
    · rw [if_pos ha]
      rcases List.mem_cons.mp h with rfl | hmem
      · rw [hc] at ha; cases ha
      · exact ih hmem
    · rw [if_neg ha]
      exact h

/-- A string containing a non-whitespace character trims to something
non-empty. -/
theorem trimS_ne_nil {c : Char} {l : Str} (hc : isWs c = false)
    (h : c ∈ l) : trimS l ≠ [] := by
  rw [trimS_eq_rdropWhile]
  intro h0
  rw [List.rdropWhile_eq_nil_iff] at h0
  have := h0 c (mem_dropWhile_of_not_ws hc h)
  rw [hc] at this
  cases this

/-- The head of a `dropWhile` result fails the dropped predicate. -/
theorem dropWhile_head?_not (p : Char → Bool) :
    ∀ (l : List Char) (c : Char),
      (List.dropWhile p l).head? = some c → p c = false := by
  intro l
  induction l with
  | nil => intro c hc; cases hc
  | cons a as ih =>
    intro c hc
    rw [List.dropWhile_cons] at hc
    by_cases ha : p a = true
    · rw [if_pos ha] at hc
      exact ih c hc
    · rw [if_neg ha] at hc
      rw [List.head?_cons, Option.some_inj] at hc
      subst hc
      simp only [Bool.not_eq_true] at ha
      exact ha

/-- The last character of a trimmed non-empty string is not
whitespace. -/
theorem trimmed_getLast_not_ws {l : Str} (hl : trimS l = l) :
    ∀ c, l.getLast? = some c → isWs c = false := by
  intro c hc
  have h2 : List.reverse (List.dropWhile isWs
      (List.reverse (List.dropWhile isWs l))) = l := hl
  rw [← h2, List.getLast?_reverse] at hc
  exact dropWhile_head?_not isWs _ c hc

/-- `List.findIdx?` returns an index within bounds (stated with the
running start index). -/
theorem findIdx?_bounds {p : Char → Bool} :
    ∀ (l : List Char) (i j : Nat), List.findIdx? p l i = some j →
      i ≤ j ∧ j < i + l.length := by
  intro l
  induction l with
  | nil => intro i j h; cases h
  | cons a as ih =>
    intro i j h
    rw [List.findIdx?_cons] at h
    by_cases ha : p a = true
    · rw [if_pos ha, Option.some_inj] at h
      subst h
      simp
    · rw [if_neg ha] at h
      have := ih (i + 1) j h
      constructor
      · omega
      · simp only [List.length_cons]
        omega

/-- `extract_company_name` preserves trimmedness. -/
theorem extract_company_name_trimmed (title : Str)
    (h : trimS title = title) :
    trimS (extract_company_name title) = extract_company_name title := by
  unfold extract_company_name
  cases List.findIdx? (fun c => c = ' ') title with
  | none => exact h
  | some idx =>
    dsimp only
    split
    · exact trimS_idem _
    · exact h

/-- `extract_company_name` of a trimmed non-empty title is
non-empty. -/
theorem extract_company_name_ne_nil (title : Str)
    (h : trimS title = title) (hne : title ≠ []) :
    extract_company_name title ≠ [] := by
  unfold extract_company_name
  cases hidx : List.findIdx? (fun c => c = ' ') title with
  | none => exact hne
  | some idx =>
    dsimp only
    split
    · have hbound := findIdx?_bounds title 0 idx hidx
      have hdrop : List.drop idx title ≠ [] := by
        rw [Ne, List.drop_eq_nil_iff]
        omega
      have hlast2 : (List.drop idx title).getLast? = title.getLast? := by
        conv_rhs => rw [← List.take_append_drop idx title]
        rw [List.getLast?_append_of_ne_nil _ hdrop]
      have hlastmem : (List.drop idx title).getLast hdrop
          ∈ List.drop idx title := List.getLast_mem hdrop
      have hlastsome := List.getLast?_eq_getLast _ hdrop
      have hlastws : isWs ((List.drop idx title).getLast hdrop) = false := by
        apply trimmed_getLast_not_ws h
        rw [← hlast2]
        exact hlastsome
      exact trimS_ne_nil hlastws hlastmem
    · exact hne

/-- `extract_xml_tag` always returns a trimmed string. -/
theorem extract_xml_tag_trimmed (xml tag : Str) :
    trimS (extract_xml_tag xml tag) = extract_xml_tag xml tag := by
  unfold extract_xml_tag
  dsimp only
  split
  · split
    · exact trimS_idem _
    · rfl
  · rfl

/-- C9 (amended): every event the PACER poller emits carries
`company_name = extract_company_name(title)`; for the titles the feed
parser produces (`extract_xml_tag` output is always trimmed) the company
name is always equal to its own trimmed form, and it is non-empty
whenever the title is non-empty — but an empty title yields an **empty**
company name, since `BankruptcyEvent::new` performs no validation. -/
theorem claim_c9_company_name (cfg : DedupCfg)
    (court feed title desc link : Str) (minConf : Q) (dedup : DedupState)
    (now : Nat) (e : BankruptcyEvent) (s' : DedupState)
    (htitle : trimS title = title)
    (h : pacer_process_item cfg court feed title desc link minConf dedup now
        = (some e, s')) :
    e.company_name = extract_company_name title
    ∧ trimS e.company_name = e.company_name
    ∧ (title ≠ [] → e.company_name ≠ [])
    ∧ (∀ xml tag, trimS (extract_xml_tag xml tag)
        = extract_xml_tag xml tag) := by
  simp only [pacer_process_item] at h
  split at h
  · exact absurd h (by simp)
  · split at h
    · exact absurd h (by simp)
    · split at h
      · exact absurd h (by simp)
      · rw [Prod.mk.injEq] at h
        obtain ⟨he, _⟩ := h
        injection he with he
        have hname : e.company_name = extract_company_name title := by
          rw [← he] <;> rfl
        refine ⟨hname, ?_, ?_, extract_xml_tag_trimmed⟩
        · rw [hname]
          exact extract_company_name_trimmed title htitle
        · intro hne
          rw [hname]
          exact extract_company_name_ne_nil title htitle hne

/-- A PACER title with a case-number prefix, for the C9 witness. -/
def pacerTitleW : Str := ofString "2:24-bk-12345 Acme Freight LLC"

/-- A PACER description rich enough to pass the confidence gate. -/
def pacerDescW : Str := ofString "chapter 11 freight trucking bankruptcy"

/-- C9 witness: the item with title `2:24-bk-12345 Acme Freight LLC`
emits an event whose company name is the trimmed, non-empty
`Acme Freight LLC`. -/
theorem claim_c9_witness :
    trimS pacerTitleW = pacerTitleW
    ∧ extract_company_name pacerTitleW = ofString "Acme Freight LLC"
    ∧ (pacer_process_item (testCfg 10000) (ofString "Delaware")
        (ofString "feed") pacerTitleW pacerDescW (ofString "link")
        (Q.frac 3 10) (DedupEngine.new 0) 0).1.map
          (fun e => e.company_name)
        = some (extract_company_name pacerTitleW)
    ∧ (pacer_process_item (testCfg 10000) (ofString "Delaware")
        (ofString "feed") pacerTitleW pacerDescW (ofString "link")
        (Q.frac 3 10) (DedupEngine.new 0) 0).1.map
          (fun e => decide (trimS e.company_name = e.company_name
            ∧ e.company_name ≠ []))
        = some true := by
  have hsome : (pacer_process_item (testCfg 10000) (ofString "Delaware")
      (ofString "feed") pacerTitleW pacerDescW (ofString "link")
      (Q.frac 3 10) (DedupEngine.new 0) 0).1.isSome = true := by decide
  have h1 : (pacer_process_item (testCfg 10000) (ofString "Delaware")
      (ofString "feed") pacerTitleW pacerDescW (ofString "link")
      (Q.frac 3 10) (DedupEngine.new 0) 0).1
      = some ((pacer_process_item (testCfg 10000) (ofString "Delaware")
          (ofString "feed") pacerTitleW pacerDescW (ofString "link")
          (Q.frac 3 10) (DedupEngine.new 0) 0).1.get hsome) :=
    (Option.some_get hsome).symm
  have h : pacer_process_item (testCfg 10000) (ofString "Delaware")
      (ofString "feed") pacerTitleW pacerDescW (ofString "link")
      (Q.frac 3 10) (DedupEngine.new 0) 0
      = (some ((pacer_process_item (testCfg 10000) (ofString "Delaware")
          (ofString "feed") pacerTitleW pacerDescW (ofString "link")
          (Q.frac 3 10) (DedupEngine.new 0) 0).1.get hsome),
         (pacer_process_item (testCfg 10000) (ofString "Delaware")
          (ofString "feed") pacerTitleW pacerDescW (ofString "link")
          (Q.frac 3 10) (DedupEngine.new 0) 0).2) := by
    rw [← h1]
  have hc := claim_c9_company_name (testCfg 10000) (ofString "Delaware")
    (ofString "feed") pacerTitleW pacerDescW (ofString "link")
    (Q.frac 3 10) (DedupEngine.new 0) 0 _ _ (by decide) h
  refine ⟨by decide, by decide, ?_, ?_⟩
  · rw [h1, Option.map_some']
    exact congrArg some hc.1
  · rw [h1, Option.map_some']
    refine congrArg some ?_
    rw [decide_eq_true_eq]
    exact ⟨hc.2.1, hc.2.2.1 (by decide)⟩

/-- C9 counterexample: a PACER item whose title is empty but whose
description passes the scanner at the default minimum confidence 0.3 is
emitted with an **empty** `company_name`, violating the claimed
non-emptiness for records whose title field is empty. -/
theorem claim_c9_counterexample :
    (pacer_process_item (testCfg 10000) (ofString "Delaware")
      (ofString "feed") [] (ofString "freight trucking bankruptcy chapter 11")
      (ofString "link") (Q.frac 3 10) (DedupEngine.new 0) 0).1.map
        (fun e => e.company_name)
      = some [] := by decide

end FreightDoom
